import Mathlib

/-!
Verification of the SDP line parser in src/packet-sdp.c (function dissect_sdp).

The embedding models the dissection loop of dissect_sdp over a byte buffer.
Bytes are natural numbers (ASCII codes); the local variable named section of
the C code is a natural number sect, initialized to 0, and set to the byte
values 118 (letter v), 116 (letter t) and 109 (letter m) exactly where the
C switch assigns the corresponding character constants.  Every record the C
code emits through proto_tree_add_text is modelled as a Rec value carrying
the span (start offset and byte length inside the buffer) it covers.
-/

namespace SDP

/-- A byte buffer: the SDP payload handed to dissect_sdp, as byte values. -/
abbrev Buf := List Nat

/-- One output record of the dissection.  classified models the normal
proto_tree_add_text call at lines 187-190 of src/packet-sdp.c (span, tag
byte, resolved display name, value bytes); malformed models the Invalid
line call at lines 110-113 (span and raw line content); trailing models
the Data call at lines 196-197 (span of the leftover bytes). -/
inductive Rec where
  | classified (start len tag : Nat) (name : String) (value : List Nat)
  | malformed (start len : Nat) (content : List Nat)
  | trailing (start len : Nat)
deriving DecidableEq, Repr

/-- Whether a record is a malformed-line record. -/
def Rec.isMalformed : Rec → Bool
  | Rec.malformed _ _ _ => true
  | _ => false

/-- Start offset of the span a record covers. -/
def recStart : Rec → Nat
  | Rec.classified st _ _ _ _ => st
  | Rec.malformed st _ _ => st
  | Rec.trailing st _ => st

/-- Byte length of the span a record covers. -/
def recLen : Rec → Nat
  | Rec.classified _ l _ _ _ => l
  | Rec.malformed _ l _ => l
  | Rec.trailing _ l => l

/-- Modelled from the spec: the line scanner tvb_find_line_end_unquoted is
not part of this repository (only its caller is in src); section 4.1 of the
spec describes it as scanning for the first line-terminator byte at or
after the offset.  findTermAux returns the absolute index of the first
carriage return (13) or line feed (10) byte of the list, whose first
element sits at absolute index i. -/
def findTermAux : List Nat → Nat → Option Nat
  | [], _ => none
  | b :: rest, i => if b = 13 ∨ b = 10 then some i else findTermAux rest (i + 1)

/-- Modelled from the spec: index of the first line-terminator byte of buf
at or after offset, if any. -/
def findTerm (buf : Buf) (offset : Nat) : Option Nat :=
  findTermAux (buf.drop offset) offset

/-- Modelled from the spec: the contract of tvb_find_line_end_unquoted as
given in section 4.1.  Returns the pair (linelen, nextOffset): the length
of the line content up to the first terminator, and the offset where
parsing resumes.  A carriage return directly followed by a line feed is
consumed as one two-byte terminator; a lone carriage return or a lone line
feed is a one-byte terminator; when no terminator exists the line is the
whole remainder of the buffer and nextOffset is the buffer length. -/
def scanLine (buf : Buf) (offset : Nat) : Nat × Nat :=
  match findTerm buf offset with
  | none => (buf.length - offset, buf.length)
  | some j =>
      if buf.getD j 0 = 13 ∧ j + 1 < buf.length ∧ buf.getD (j + 1) 0 = 10 then
        (j - offset, j + 2)
      else
        (j - offset, j + 1)

/-- The tag switch of dissect_sdp (src/packet-sdp.c lines 123-185): display
name by tag byte, where the cases for tag i (105) and tag a (97) consult
the current sect value (118 after a v line, 109 after an m line). -/
def sdp_typename (sect tag : Nat) : String :=
  if tag = 118 then "Session Description, version"
  else if tag = 111 then "Owner/Creator, Session Id"
  else if tag = 115 then "Session Name"
  else if tag = 105 then
    (if sect = 118 then "Session Information"
     else if sect = 109 then "Media Title"
     else "Misplaced")
  else if tag = 117 then "URI of Description"
  else if tag = 101 then "E-mail Address"
  else if tag = 112 then "Phone Number"
  else if tag = 99 then "Connection Information"
  else if tag = 98 then "Bandwidth Information"
  else if tag = 116 then "Time Description, active time"
  else if tag = 114 then "Repeat Time"
  else if tag = 109 then "Media Description, name and address"
  else if tag = 107 then "Encryption Key"
  else if tag = 97 then
    (if sect = 118 then "Session Attribute"
     else if sect = 109 then "Media Attribute"
     else "Misplaced")
  else if tag = 122 then "Time Zone Adjustment"
  else "Unknown"

/-- The three assignments to the section variable inside the switch of
dissect_sdp (lines 125, 158, 165): tag v (118) sets 118, tag t (116) sets
116, tag m (109) sets 109, every other tag leaves the value alone. -/
def sdp_update_sect (sect tag : Nat) : Nat :=
  if tag = 118 then 118
  else if tag = 116 then 116
  else if tag = 109 then 109
  else sect

/-- Result of one iteration of the dissection loop: stop models the break
at line 105 (line shorter than two bytes); record carries the emitted
record, the offset where the loop resumes, and the new sect value. -/
inductive StepResult where
  | stop
  | record (r : Rec) (next sect2 : Nat)
deriving DecidableEq, Repr

/-- One iteration of the while loop of dissect_sdp (lines 94-192), for a
current offset and sect value: scan the line; break when its content is
shorter than two bytes; emit an Invalid line record when the second byte
is not the equals sign (61), leaving sect alone; otherwise emit the
classified record and update sect through the switch. -/
def sdpStep (buf : Buf) (offset sect : Nat) : StepResult :=
  if (scanLine buf offset).1 < 2 then StepResult.stop
  else if buf.getD (offset + 1) 0 ≠ 61 then
    StepResult.record
      (Rec.malformed offset ((scanLine buf offset).2 - offset)
        ((buf.drop offset).take ((scanLine buf offset).2 - offset)))
      (scanLine buf offset).2 sect
  else
    StepResult.record
      (Rec.classified offset ((scanLine buf offset).2 - offset) (buf.getD offset 0)
        (sdp_typename sect (buf.getD offset 0))
        ((buf.drop (offset + 2)).take ((scanLine buf offset).1 - 2)))
      (scanLine buf offset).2 (sdp_update_sect sect (buf.getD offset 0))

/-- The sect value after one loop iteration (unchanged when the iteration
breaks out of the loop). -/
def sectionAfterStep (buf : Buf) (offset sect : Nat) : Nat :=
  match sdpStep buf offset sect with
  | StepResult.stop => sect
  | StepResult.record _ _ s2 => s2

/-- Outcome of the dissection loop: the records emitted inside the loop,
the offset at which the loop stopped, and the final sect value. -/
structure LoopOut where
  recs : List Rec
  endOffset : Nat
  endSection : Nat
deriving DecidableEq, Repr

/-- The while loop of dissect_sdp, fuelled: each iteration strictly
advances the offset, so any fuel of at least buf.length - offset runs the
loop to completion (parseLoop below instantiates exactly that fuel). -/
def parseLoopFuel : Nat → Buf → Nat → Nat → LoopOut
  | 0, _, offset, sect => ⟨[], offset, sect⟩
  | fuel + 1, buf, offset, sect =>
      if offset < buf.length then
        match sdpStep buf offset sect with
        | StepResult.stop => ⟨[], offset, sect⟩
        | StepResult.record r nx s2 =>
            let rest := parseLoopFuel fuel buf nx s2
            ⟨r :: rest.recs, rest.endOffset, rest.endSection⟩
      else ⟨[], offset, sect⟩

/-- The while loop of dissect_sdp (lines 94-192) run from a given offset
and sect value. -/
def parseLoop (buf : Buf) (offset sect : Nat) : LoopOut :=
  parseLoopFuel (buf.length - offset) buf offset sect

/-- The loop followed by the trailing-data emission of lines 194-198: when
bytes remain after the loop stopped, exactly one Data record covering them
is appended. -/
def runFrom (buf : Buf) (offset sect : Nat) : List Rec :=
  (parseLoop buf offset sect).recs ++
    (if 0 < buf.length - (parseLoop buf offset sect).endOffset then
      [Rec.trailing (parseLoop buf offset sect).endOffset
        (buf.length - (parseLoop buf offset sect).endOffset)]
     else [])

/-- One invocation of dissect_sdp on a buffer: the section variable starts
at 0 (line 93) and the loop starts at offset 0. -/
def dissect_sdp (buf : Buf) : List Rec := runFrom buf 0 0

/-- One invocation of dissect_sdp made explicit about cross-call state:
stale is whatever value the local section variable might inherit from a
previous invocation; line 93 of the C code overwrites it with 0 before the
loop, so the invocation ignores it.  Returns the emitted records together
with the final value of the section variable. -/
def sdpInvoke (_stale : Nat) (buf : Buf) : List Rec × Nat :=
  (dissect_sdp buf, (parseLoop buf 0 0).endSection)

/-- Display name of the record at position k of a record list, when that
record is a classified field. -/
def displayNameAt (l : List Rec) (k : Nat) : Option String :=
  match l.drop k with
  | Rec.classified _ _ _ nm _ :: _ => some nm
  | _ => none

/-- The byte values of the fifteen recognized tag characters
v,o,s,i,u,e,p,c,b,t,r,m,k,a,z of the switch. -/
def recognizedTags : List Nat :=
  [118, 111, 115, 105, 117, 101, 112, 99, 98, 116, 114, 109, 107, 97, 122]

/-- The spans of a record list tile the half-open byte range from a to b:
each record starts where the previous one ended, covers at least one byte,
and the last one ends exactly at b. -/
def tiles : List Rec → Nat → Nat → Prop
  | [], a, b => a = b
  | r :: rest, a, b => recStart r = a ∧ 0 < recLen r ∧ tiles rest (a + recLen r) b

/-- Example buffer x CR LF. -/
def exShort : Buf := [120, 13, 10]

/-- Example buffer x LF. -/
def exShort2 : Buf := [120, 10]

/-- Example buffer v=0 CRLF t=0 CRLF: a time line after a version line. -/
def exVT : Buf := [118, 61, 48, 13, 10, 116, 61, 48, 13, 10]

/-- Example buffer v=0 CRLF t=0 CRLF i=x CRLF: an information line after a
version line and an intervening time line. -/
def exVTI : Buf :=
  [118, 61, 48, 13, 10, 116, 61, 48, 13, 10, 105, 61, 120, 13, 10]

/-- Example buffer v=0 CRLF ab:bad CRLF s=Title CRLF: a line whose second
byte is not the equals sign, between two well-formed lines. -/
def exAbBad : Buf :=
  [118, 61, 48, 13, 10, 97, 98, 58, 98, 97, 100, 13, 10,
   115, 61, 84, 105, 116, 108, 101, 13, 10]

/-- Example buffer v=0 CRLF x=foo CRLF: an unrecognized tag line. -/
def exXfoo : Buf := [118, 61, 48, 13, 10, 120, 61, 102, 111, 111, 13, 10]

/-- Example buffer v=0 CRLF s=Title: the final line has no terminator. -/
def exNoTerm : Buf := [118, 61, 48, 13, 10, 115, 61, 84, 105, 116, 108, 101]

/-- A hit of findTermAux lies at or after the start index and inside the
scanned list. -/
theorem findTermAux_some_bounds :
    ∀ (l : List Nat) (i j : Nat), findTermAux l i = some j → i ≤ j ∧ j < i + l.length := by
  intro l
  induction l with
  | nil =>
      intro i j h
      simp [findTermAux] at h
  | cons b rest ih =>
      intro i j h
      simp only [findTermAux] at h
      split at h
      · injection h with h2
        subst h2
        simp [List.length_cons]
      · have := ih (i + 1) j h
        simp only [List.length_cons]
        omega

/-- A hit of findTerm lies at or after the offset and inside the buffer. -/
theorem findTerm_some_bounds (buf : Buf) (off j : Nat) (h : findTerm buf off = some j) :
    off ≤ j ∧ j < buf.length := by
  have hb := findTermAux_some_bounds (buf.drop off) off j h
  rw [List.length_drop] at hb
  omega

/-- The scanner strictly advances the offset and never moves past the end
of the buffer. -/
theorem scanLine_advance (buf : Buf) (off : Nat) (h : off < buf.length) :
    off < (scanLine buf off).2 ∧ (scanLine buf off).2 ≤ buf.length := by
  unfold scanLine
  cases hft : findTerm buf off with
  | none =>
      simp only [hft]
      exact ⟨h, le_refl _⟩
  | some j =>
      have hb := findTerm_some_bounds buf off j hft
      simp only [hft]
      by_cases hc : buf.getD j 0 = 13 ∧ j + 1 < buf.length ∧ buf.getD (j + 1) 0 = 10
      · rw [if_pos hc]
        constructor
        · show off < j + 2
          omega
        · show j + 2 ≤ buf.length
          omega
      · rw [if_neg hc]
        constructor
        · show off < j + 1
          omega
        · show j + 1 ≤ buf.length
          omega

/-- A line whose content is shorter than two bytes makes the loop break. -/
theorem sdpStep_short (buf : Buf) (off s : Nat) (h : (scanLine buf off).1 < 2) :
    sdpStep buf off s = StepResult.stop := by
  unfold sdpStep
  rw [if_pos h]

/-- A line of content length at least two whose second byte is not the
equals sign yields the Invalid line record, leaving sect alone and
resuming after the line. -/
theorem sdpStep_malformed (buf : Buf) (off s : Nat)
    (h2 : 2 ≤ (scanLine buf off).1) (h3 : buf.getD (off + 1) 0 ≠ 61) :
    sdpStep buf off s =
      StepResult.record
        (Rec.malformed off ((scanLine buf off).2 - off)
          ((buf.drop off).take ((scanLine buf off).2 - off)))
        (scanLine buf off).2 s := by
  unfold sdpStep
  rw [if_neg (show ¬ (scanLine buf off).1 < 2 by omega), if_pos h3]

/-- A line of content length at least two whose second byte is the equals
sign yields the classified record of the switch and updates sect. -/
theorem sdpStep_valid (buf : Buf) (off s : Nat)
    (h2 : 2 ≤ (scanLine buf off).1) (h3 : buf.getD (off + 1) 0 = 61) :
    sdpStep buf off s =
      StepResult.record
        (Rec.classified off ((scanLine buf off).2 - off) (buf.getD off 0)
          (sdp_typename s (buf.getD off 0))
          ((buf.drop (off + 2)).take ((scanLine buf off).1 - 2)))
        (scanLine buf off).2 (sdp_update_sect s (buf.getD off 0)) := by
  unfold sdpStep
  rw [if_neg (show ¬ (scanLine buf off).1 < 2 by omega), if_neg (not_not_intro h3)]

/-- Every record the loop body emits covers exactly the bytes between the
current offset and the resumption offset, which moves strictly forward and
stays inside the buffer. -/
theorem sdpStep_record_span (buf : Buf) (off s : Nat) (r : Rec) (nx s2 : Nat)
    (h : sdpStep buf off s = StepResult.record r nx s2) (hoff : off < buf.length) :
    recStart r = off ∧ recLen r = nx - off ∧ off < nx ∧ nx ≤ buf.length := by
  have hadv := scanLine_advance buf off hoff
  by_cases h1 : (scanLine buf off).1 < 2
  · rw [sdpStep_short buf off s h1] at h
    exact absurd h (by simp)
  · push_neg at h1
    by_cases h3 : buf.getD (off + 1) 0 = 61
    · rw [sdpStep_valid buf off s h1 h3] at h
      injection h with hr hn hs
      subst hr; subst hn
      exact ⟨rfl, rfl, hadv.1, hadv.2⟩
    · rw [sdpStep_malformed buf off s h1 h3] at h
      injection h with hr hn hs
      subst hr; subst hn
      exact ⟨rfl, rfl, hadv.1, hadv.2⟩

/-- Any two sufficient amounts of fuel run the loop to the same outcome. -/
theorem parseLoopFuel_congr :
    ∀ (f g : Nat) (buf : Buf) (off s : Nat),
      buf.length - off ≤ f → buf.length - off ≤ g →
      parseLoopFuel f buf off s = parseLoopFuel g buf off s := by
  intro f
  induction f with
  | zero =>
      intro g buf off s hf hg
      have hlen : ¬ off < buf.length := by omega
      cases g with
      | zero => rfl
      | succ g => simp [parseLoopFuel, hlen]
  | succ f ih =>
      intro g buf off s hf hg
      cases g with
      | zero =>
          have hlen : ¬ off < buf.length := by omega
          simp [parseLoopFuel, hlen]
      | succ g =>
          by_cases hoff : off < buf.length
          · simp only [parseLoopFuel, if_pos hoff]
            cases hstep : sdpStep buf off s with
            | stop => rfl
            | record r nx s2 =>
                have hspan := sdpStep_record_span buf off s r nx s2 hstep hoff
                simp only []
                rw [ih g buf nx s2 (by omega) (by omega)]
          · simp [parseLoopFuel, hoff]

/-- When the loop body breaks, the loop emits nothing and stops where it
stands. -/
theorem parseLoop_stop (buf : Buf) (off s : Nat)
    (hoff : off < buf.length) (h : sdpStep buf off s = StepResult.stop) :
    parseLoop buf off s = ⟨[], off, s⟩ := by
  unfold parseLoop
  obtain ⟨k, hk⟩ : ∃ k, buf.length - off = k + 1 := ⟨buf.length - off - 1, by omega⟩
  rw [hk]
  simp [parseLoopFuel, hoff, h]

/-- At or past the end of the buffer the loop does not run at all. -/
theorem parseLoop_beyond (buf : Buf) (off s : Nat) (hoff : buf.length ≤ off) :
    parseLoop buf off s = ⟨[], off, s⟩ := by
  unfold parseLoop
  have h0 : buf.length - off = 0 := by omega
  rw [h0]
  rfl

/-- When the loop body emits a record, the loop outcome is that record
followed by the outcome of the loop resumed at the new offset and sect. -/
theorem parseLoop_record (buf : Buf) (off s : Nat) (r : Rec) (nx s2 : Nat)
    (hoff : off < buf.length) (h : sdpStep buf off s = StepResult.record r nx s2) :
    parseLoop buf off s =
      ⟨r :: (parseLoop buf nx s2).recs, (parseLoop buf nx s2).endOffset,
        (parseLoop buf nx s2).endSection⟩ := by
  have hspan := sdpStep_record_span buf off s r nx s2 h hoff
  unfold parseLoop
  obtain ⟨k, hk⟩ : ∃ k, buf.length - off = k + 1 := ⟨buf.length - off - 1, by omega⟩
  rw [hk]
  simp only [parseLoopFuel, if_pos hoff, h]
  rw [parseLoopFuel_congr k (buf.length - nx) buf nx s2 (by omega) (le_refl _)]

/-- Tiling ranges compose by list concatenation. -/
theorem tiles_append :
    ∀ (l m : List Rec) (a b c : Nat), tiles l a b → tiles m b c → tiles (l ++ m) a c := by
  intro l
  induction l with
  | nil =>
      intro m a b c h1 h2
      have hab : a = b := h1
      subst hab
      exact h2
  | cons r rest ih =>
      intro m a b c h1 h2
      obtain ⟨hs, hp, ht⟩ := h1
      exact ⟨hs, hp, ih m _ b c ht h2⟩

/-- The records the loop emits tile the byte range from the start offset
to the offset where the loop stopped, which never overruns the buffer. -/
theorem parseLoopFuel_tiles :
    ∀ (fuel : Nat) (buf : Buf) (off s : Nat),
      buf.length - off ≤ fuel → off ≤ buf.length →
      tiles (parseLoopFuel fuel buf off s).recs off (parseLoopFuel fuel buf off s).endOffset
      ∧ off ≤ (parseLoopFuel fuel buf off s).endOffset
      ∧ (parseLoopFuel fuel buf off s).endOffset ≤ buf.length := by
  intro fuel
  induction fuel with
  | zero =>
      intro buf off s hf ho
      exact ⟨rfl, le_refl _, ho⟩
  | succ fuel ih =>
      intro buf off s hf ho
      by_cases hoff : off < buf.length
      · simp only [parseLoopFuel, if_pos hoff]
        cases hstep : sdpStep buf off s with
        | stop => exact ⟨rfl, le_refl _, ho⟩
        | record r nx s2 =>
            have hspan := sdpStep_record_span buf off s r nx s2 hstep hoff
            have hrec := ih buf nx s2 (by omega) (by omega)
            simp only []
            refine ⟨⟨hspan.1, by omega, ?_⟩, by omega, hrec.2.2⟩
            have hnx : off + recLen r = nx := by omega
            rw [hnx]
            exact hrec.1
      · simp only [parseLoopFuel, if_neg hoff]
        exact ⟨rfl, le_refl _, ho⟩

/-- C1 (amended): on a syntactically valid line (content length at least
two, second byte the equals sign) the section variable becomes 118
(Session) when the tag byte is v, 109 (Media) when it is m, and 116 (the
Time marker, neither Session nor Media) when it is t; every other tag
byte, and every line that is malformed or too short, leaves the section
variable unchanged. -/
theorem c1_sectionTransitions (buf : Buf) (off s : Nat) :
    sectionAfterStep buf off s =
      if 2 ≤ (scanLine buf off).1 ∧ buf.getD (off + 1) 0 = 61 then
        (if buf.getD off 0 = 118 then 118
         else if buf.getD off 0 = 109 then 109
         else if buf.getD off 0 = 116 then 116
         else s)
      else s := by
  by_cases h1 : (scanLine buf off).1 < 2
  · unfold sectionAfterStep
    rw [sdpStep_short buf off s h1, if_neg (by rintro ⟨ha, hb⟩; omega)]
  · push_neg at h1
    by_cases h3 : buf.getD (off + 1) 0 = 61
    · unfold sectionAfterStep
      rw [sdpStep_valid buf off s h1 h3, if_pos ⟨h1, h3⟩]
      show sdp_update_sect s (buf.getD off 0) = _
      generalize buf.getD off 0 = t
      unfold sdp_update_sect
      split_ifs <;> omega
    · unfold sectionAfterStep
      rw [sdpStep_malformed buf off s h1 h3, if_neg (by rintro ⟨ha, hb⟩; exact h3 hb)]

/-- C1 counterexample: after dissecting the two valid lines v=0 and t=0
the section variable holds 116 (the Time marker set by the t line at line
158 of the C code) and not 118 (Session); the t line therefore changed the
Section state, refuting the claim that every tag other than v and m leaves
it unchanged. -/
theorem c1_counterexample :
    (parseLoop exVT 0 0).endSection = 116 ∧
    ¬ (parseLoop exVT 0 0).endSection = 118 := by decide

/-- C2 (amended): a valid i line resolves to Session Information when the
section variable is 118 (Session), to Media Title when it is 109 (Media)
and otherwise to Misplaced, and an a line resolves to Session Attribute,
Media Attribute or Misplaced the same way; however a valid t line sets
the section variable to 116, so an i or a line following it resolves to
Misplaced, not to the name of the section that was open before the t
line. -/
theorem c2_contextResolution (s : Nat) :
    (sdp_typename s 105 =
      if s = 118 then "Session Information"
      else if s = 109 then "Media Title" else "Misplaced")
    ∧ (sdp_typename s 97 =
      if s = 118 then "Session Attribute"
      else if s = 109 then "Media Attribute" else "Misplaced")
    ∧ sdp_typename (sdp_update_sect s 116) 105 = "Misplaced"
    ∧ sdp_typename (sdp_update_sect s 116) 97 = "Misplaced" := by
  refine ⟨?_, ?_, ?_, ?_⟩ <;> simp [sdp_typename, sdp_update_sect]

/-- C2 counterexample: for the line sequence v=0, t=0, i=x the third
record resolves to Misplaced and not to Session Information, refuting the
claim that an intervening valid t line does not affect the resolution of
a following i line. -/
theorem c2_counterexample :
    displayNameAt (dissect_sdp exVTI) 2 = some "Misplaced" ∧
    ¬ displayNameAt (dissect_sdp exVTI) 2 = some "Session Information" := by
  decide

/-- C3 counterexample: for the buffer holding the single short line x CR
LF the dissection emits only the trailing Data record covering all three
bytes, and no malformed-line record at all, refuting the claim that a line
of content length below two yields a MalformedLine record. -/
theorem c3_counterexample :
    dissect_sdp exShort = [Rec.trailing 0 3] ∧
    ∀ r ∈ dissect_sdp exShort, r.isMalformed = false := by decide

/-- C3 (amended): a scanned line whose content length is below two makes
the dissection stop and emit, from the start of that line to the end of
the buffer, exactly one trailing Data record; no malformed-line record is
produced for it. -/
theorem c3_shortLineData (buf : Buf) (off s : Nat)
    (hoff : off < buf.length) (hshort : (scanLine buf off).1 < 2) :
    runFrom buf off s = [Rec.trailing off (buf.length - off)] ∧
    ∀ r ∈ runFrom buf off s, r.isMalformed = false := by
  have hpl := parseLoop_stop buf off s hoff (sdpStep_short buf off s hshort)
  have hrun : runFrom buf off s = [Rec.trailing off (buf.length - off)] := by
    unfold runFrom
    rw [hpl]
    dsimp only
    rw [if_pos (show 0 < buf.length - off by omega)]
    simp
  refine ⟨hrun, ?_⟩
  intro r hr
  rw [hrun] at hr
  simp only [List.mem_singleton] at hr
  subst hr
  rfl

/-- C3 witness at the buffer x LF. -/
theorem c3_witness :
    0 < exShort2.length ∧ (scanLine exShort2 0).1 < 2 ∧
    (runFrom exShort2 0 0 = [Rec.trailing 0 (exShort2.length - 0)] ∧
      ∀ r ∈ runFrom exShort2 0 0, r.isMalformed = false) :=
  ⟨by decide, by decide, c3_shortLineData exShort2 0 0 (by decide) (by decide)⟩

/-- C4: once the scanner yields a line whose content length is below two
bytes, the loop emits no further record, and all bytes from that line
start to the buffer end come out as exactly one trailing Data record. -/
theorem c4_earlyExit (buf : Buf) (off s : Nat)
    (hoff : off < buf.length) (hshort : (scanLine buf off).1 < 2) :
    (parseLoop buf off s).recs = [] ∧
    runFrom buf off s = [Rec.trailing off (buf.length - off)] := by
  have hpl := parseLoop_stop buf off s hoff (sdpStep_short buf off s hshort)
  constructor
  · rw [hpl]
  · unfold runFrom
    rw [hpl]
    dsimp only
    rw [if_pos (show 0 < buf.length - off by omega)]
    simp

/-- C4 witness at the buffer x CR LF. -/
theorem c4_witness :
    0 < exShort.length ∧ (scanLine exShort 0).1 < 2 ∧
    ((parseLoop exShort 0 0).recs = [] ∧
      runFrom exShort 0 0 = [Rec.trailing 0 (exShort.length - 0)]) :=
  ⟨by decide, by decide, c4_earlyExit exShort 0 0 (by decide) (by decide)⟩

/-- C5: a line of content length at least two whose second byte is not the
equals sign is emitted as the Invalid line record covering the whole line,
and the loop resumes right after it with the section variable unchanged,
classifying the following lines as usual. -/
theorem c5_invalidLineContinues (buf : Buf) (off s : Nat)
    (hoff : off < buf.length) (h2 : 2 ≤ (scanLine buf off).1)
    (h3 : buf.getD (off + 1) 0 ≠ 61) :
    parseLoop buf off s =
      ⟨Rec.malformed off ((scanLine buf off).2 - off)
          ((buf.drop off).take ((scanLine buf off).2 - off)) ::
        (parseLoop buf (scanLine buf off).2 s).recs,
        (parseLoop buf (scanLine buf off).2 s).endOffset,
        (parseLoop buf (scanLine buf off).2 s).endSection⟩ :=
  parseLoop_record buf off s _ _ _ hoff (sdpStep_malformed buf off s h2 h3)

/-- C5 witness at the buffer v=0, ab:bad, s=Title: the middle line is the
Invalid line record, the section value stays 118 across it, and the whole
dissection classifies the final line as Session Name. -/
theorem c5_witness :
    5 < exAbBad.length ∧ 2 ≤ (scanLine exAbBad 5).1 ∧
    exAbBad.getD (5 + 1) 0 ≠ 61 ∧
    parseLoop exAbBad 5 118 =
      ⟨Rec.malformed 5 ((scanLine exAbBad 5).2 - 5)
          ((exAbBad.drop 5).take ((scanLine exAbBad 5).2 - 5)) ::
        (parseLoop exAbBad (scanLine exAbBad 5).2 118).recs,
        (parseLoop exAbBad (scanLine exAbBad 5).2 118).endOffset,
        (parseLoop exAbBad (scanLine exAbBad 5).2 118).endSection⟩ ∧
    dissect_sdp exAbBad =
      [Rec.classified 0 5 118 "Session Description, version" [48],
       Rec.malformed 5 8 [97, 98, 58, 98, 97, 100, 13, 10],
       Rec.classified 13 9 115 "Session Name" [84, 105, 116, 108, 101]] :=
  ⟨by decide, by decide, by decide,
    c5_invalidLineContinues exAbBad 5 118 (by decide) (by decide) (by decide),
    by decide⟩

/-- C6: the spans of the records of one dissection, in output order, tile
the buffer exactly and contiguously from offset zero to its end, with no
gap and no overlap. -/
theorem c6_coverage (buf : Buf) : tiles (dissect_sdp buf) 0 buf.length := by
  have h : tiles (parseLoop buf 0 0).recs 0 (parseLoop buf 0 0).endOffset
      ∧ 0 ≤ (parseLoop buf 0 0).endOffset
      ∧ (parseLoop buf 0 0).endOffset ≤ buf.length :=
    parseLoopFuel_tiles (buf.length - 0) buf 0 0 (le_refl _) (Nat.zero_le _)
  unfold dissect_sdp runFrom
  by_cases hd : 0 < buf.length - (parseLoop buf 0 0).endOffset
  · rw [if_pos hd]
    refine tiles_append _ _ 0 (parseLoop buf 0 0).endOffset buf.length h.1 ?_
    refine ⟨rfl, hd, ?_⟩
    show (parseLoop buf 0 0).endOffset +
      (buf.length - (parseLoop buf 0 0).endOffset) = buf.length
    have := h.2.2
    omega
  · rw [if_neg hd, List.append_nil]
    have he : (parseLoop buf 0 0).endOffset = buf.length := by
      have := h.2.2
      omega
    rw [← he]
    exact h.1

/-- C7: a valid line whose tag byte lies outside the recognized tag set is
still emitted as a classified field, with display name Unknown, the tag
byte itself, and the value bytes of the line content from its third byte
onward; the section variable is unchanged. -/
theorem c7_unknownTag (buf : Buf) (off s : Nat)
    (h2 : 2 ≤ (scanLine buf off).1) (h3 : buf.getD (off + 1) 0 = 61)
    (h4 : buf.getD off 0 ∉ recognizedTags) :
    sdpStep buf off s =
      StepResult.record
        (Rec.classified off ((scanLine buf off).2 - off) (buf.getD off 0)
          "Unknown" ((buf.drop (off + 2)).take ((scanLine buf off).1 - 2)))
        (scanLine buf off).2 s := by
  have hv := sdpStep_valid buf off s h2 h3
  rw [hv]
  simp only [recognizedTags, List.mem_cons, List.not_mem_nil, or_false, not_or] at h4
  obtain ⟨n1, n2, n3, n4, n5, n6, n7, n8, n9, n10, n11, n12, n13, n14, n15⟩ := h4
  rw [show sdp_typename s (buf.getD off 0) = "Unknown" by
        unfold sdp_typename
        rw [if_neg n1, if_neg n2, if_neg n3, if_neg n4, if_neg n5, if_neg n6,
          if_neg n7, if_neg n8, if_neg n9, if_neg n10, if_neg n11, if_neg n12,
          if_neg n13, if_neg n14, if_neg n15],
      show sdp_update_sect s (buf.getD off 0) = s by
        unfold sdp_update_sect
        rw [if_neg n1, if_neg n10, if_neg n12]]

/-- C7 witness: in the buffer v=0, x=foo the second line, whose tag byte x
is unrecognized, is classified as Unknown with tag 120 and value foo. -/
theorem c7_witness :
    2 ≤ (scanLine exXfoo 5).1 ∧ exXfoo.getD (5 + 1) 0 = 61 ∧
    exXfoo.getD 5 0 ∉ recognizedTags ∧
    sdpStep exXfoo 5 118 =
      StepResult.record
        (Rec.classified 5 ((scanLine exXfoo 5).2 - 5) (exXfoo.getD 5 0)
          "Unknown" ((exXfoo.drop (5 + 2)).take ((scanLine exXfoo 5).1 - 2)))
        (scanLine exXfoo 5).2 118 :=
  ⟨by decide, by decide, by decide,
    c7_unknownTag exXfoo 5 118 (by decide) (by decide) (by decide)⟩

/-- C8: when the line starting at a given offset has no terminator before
the buffer end, content length at least two and the equals sign as its
second byte, the dissection from that offset emits exactly one classified
record covering the whole remainder, and no trailing Data record, since
the scanner treats the buffer end as the line end and leaves zero bytes
over. -/
theorem c8_unterminatedLast (buf : Buf) (off s : Nat)
    (hoff : off < buf.length) (hnt : findTerm buf off = none)
    (hlen : 2 ≤ buf.length - off) (hsep : buf.getD (off + 1) 0 = 61) :
    runFrom buf off s =
      [Rec.classified off (buf.length - off) (buf.getD off 0)
        (sdp_typename s (buf.getD off 0))
        ((buf.drop (off + 2)).take (buf.length - off - 2))] := by
  have hscan : scanLine buf off = (buf.length - off, buf.length) := by
    unfold scanLine
    rw [hnt]
  have h2 : 2 ≤ (scanLine buf off).1 := by
    rw [hscan]
    exact hlen
  have hstep := sdpStep_valid buf off s h2 hsep
  rw [hscan] at hstep
  dsimp only at hstep
  have hrec := parseLoop_record buf off s _ _ _ hoff hstep
  rw [parseLoop_beyond buf buf.length (sdp_update_sect s (buf.getD off 0))
    (le_refl _)] at hrec
  dsimp only at hrec
  unfold runFrom
  rw [hrec]
  dsimp only
  rw [if_neg (by omega)]
  simp

/-- C8 witness at the buffer v=0 CRLF s=Title, whose final line s=Title
has no terminator and still comes out as the Session Name record with no
trailing Data record. -/
theorem c8_witness :
    5 < exNoTerm.length ∧ findTerm exNoTerm 5 = none ∧
    2 ≤ exNoTerm.length - 5 ∧ exNoTerm.getD (5 + 1) 0 = 61 ∧
    runFrom exNoTerm 5 118 =
      [Rec.classified 5 (exNoTerm.length - 5) (exNoTerm.getD 5 0)
        (sdp_typename 118 (exNoTerm.getD 5 0))
        ((exNoTerm.drop (5 + 2)).take (exNoTerm.length - 5 - 2))] :=
  ⟨by decide, by decide, by decide, by decide,
    c8_unterminatedLast exNoTerm 5 118 (by decide) (by decide) (by decide)
      (by decide)⟩

/-- C9: from any offset inside the buffer the scanner returns a resumption
offset that is strictly larger and at most the buffer length, so each loop
iteration either breaks or strictly advances, and the offset at which the
loop finally stops never exceeds the buffer length. -/
theorem c9_loopProgress (buf : Buf) (off s : Nat) (h : off < buf.length) :
    off < (scanLine buf off).2 ∧ (scanLine buf off).2 ≤ buf.length ∧
    (parseLoop buf off s).endOffset ≤ buf.length := by
  have h1 := scanLine_advance buf off h
  have h2 : tiles (parseLoop buf off s).recs off (parseLoop buf off s).endOffset
      ∧ off ≤ (parseLoop buf off s).endOffset
      ∧ (parseLoop buf off s).endOffset ≤ buf.length :=
    parseLoopFuel_tiles (buf.length - off) buf off s (le_refl _) (le_of_lt h)
  exact ⟨h1.1, h1.2, h2.2.2⟩

/-- C9 witness at the buffer v=0 CR LF. -/
theorem c9_witness :
    0 < ([118, 61, 48, 13, 10] : Buf).length ∧
    (0 < (scanLine [118, 61, 48, 13, 10] 0).2 ∧
      (scanLine [118, 61, 48, 13, 10] 0).2 ≤ ([118, 61, 48, 13, 10] : Buf).length ∧
      (parseLoop [118, 61, 48, 13, 10] 0 0).endOffset ≤
        ([118, 61, 48, 13, 10] : Buf).length) :=
  ⟨by decide, c9_loopProgress [118, 61, 48, 13, 10] 0 0 (by decide)⟩

/-- C10: an invocation of dissect_sdp ignores any stale value of the
section variable, because line 93 of the C code resets it to 0 before the
loop; hence the record sequence of a second invocation on a buffer, run
after an invocation on any other buffer whose final section value is
carried over as the stale value, is identical to the record sequence of a
fresh invocation, and equals dissect_sdp of the buffer. -/
theorem c10_determinism (buf other : Buf) (s1 s2 : Nat) :
    (sdpInvoke ((sdpInvoke s1 other).2) buf).1 = (sdpInvoke s2 buf).1 ∧
    (sdpInvoke s1 buf).1 = dissect_sdp buf :=
  ⟨rfl, rfl⟩

end SDP
